import Mathlib

/-!
Shallow embedding of the MONCoin Checkpoints IPFS Helper (src/index.js)
and proofs about its discovery-and-reconciliation loop.

The program keeps a local IPFS pin set in sync with the checkpoints hash
published in a DNS TXT record.  The embedding below models, directly from
the source:

* the DNS version resolver getLatestCheckpointsIPFSHash (lines 115-129),
* the pruning helper cleanPins (lines 133-164),
* the hourly timer tick handler (lines 171-210), including the mutation
  of the module-level variable lastIPFSHash,
* the diagnostic (test) mode exits (lines 198-201 and 215-220),
* the fixed-period Metronome scheduling (lines 167 and 213).

External asynchronous outcomes (DNS answers, pin.add success, pin.ls
success, per-hash pin.rm failures) are inputs of each tick.
-/

set_option autoImplicit false

deriving instance DecidableEq for Except

/-- A record as returned by node.pin.ls: a hash together with its pin type
string. The source only ever compares the type against the string
"indirect" (line 152). -/
structure PinRecord where
  hash : String
  type : String
deriving DecidableEq

/-- JS String.prototype.split for the single-character separator slash,
on the character list of the record string.  Splitting the empty string
yields one empty segment, as in JS. -/
def splitSegs : List Char → List (List Char)
  | [] => [[]]
  | c :: cs =>
    if c = '/' then [] :: splitSegs cs
    else
      match splitSegs cs with
      | [] => [[c]]
      | s :: ss => (c :: s) :: ss

/-- The expression record.split(slash).pop() of src/index.js line 124: the
last slash-separated segment of the record string. -/
def lastSegment (record : String) : String :=
  String.mk ((splitSegs record.data).getLastD [])

/-- Tests whether an Except value is a success. -/
def exceptOk {α β : Type} : Except α β → Bool
  | .ok _ => true
  | .error _ => false

/-- The version resolver getLatestCheckpointsIPFSHash (src/index.js lines
115-129).  The DNS answer is either a query error or the list of TXT
records, each record a list of strings.  The promise rejects when the
query errors, or when it returns zero records or an empty first record;
otherwise it resolves with the last slash-separated segment of the first
record of the first string. -/
def getLatestCheckpointsIPFSHash (dns : Except String (List (List String))) :
    Except String String :=
  match dns with
  | .error e => .error ((("Error querying DNS: ") : String) ++ e)
  | .ok records =>
    if records.length = 0 ∨ (records.headD []).length = 0 then
      .error ("Could not retieve the latest checkpoints IPFS hash")
    else
      .ok (lastSegment ((records.headD []).headD ("")))

/-- The hashes targeted for removal by cleanPins (src/index.js lines
150-155): every listed pin is skipped when its hash equals hashToSave or
its type is the string "indirect"; the remaining hashes are pushed both
onto removedPins and onto the list of pin.rm promises. -/
def removalTargets (pinset : List PinRecord) (hashToSave : String) :
    List String :=
  (pinset.filter fun p => p.hash != hashToSave && p.type != ("indirect")).map
    PinRecord.hash

/-- The targets whose pin.rm call succeeds, given the per-hash failure
outcomes of this tick.  All rm calls are issued eagerly (before
Promise.all awaits), so the set of successful removals does not depend on
whether some other entry fails. -/
def removedHashes (pinset : List PinRecord) (hashToSave : String)
    (rmFails : String → Bool) : List String :=
  (removalTargets pinset hashToSave).filter fun h => !(rmFails h)

/-- The helper cleanPins (src/index.js lines 133-164).  It rejects when
the pin.ls call itself rejects; otherwise it issues one pin.rm per target
and, as Promise.all does, rejects with the first failing entry when any
individual removal fails, and resolves with the full removedPins list
otherwise. -/
def cleanPins (hashToSave : String) (ls : Except String (List PinRecord))
    (rmFails : String → Bool) : Except String (List String) :=
  match ls with
  | .error e => .error e
  | .ok pinset =>
    match (removalTargets pinset hashToSave).find? rmFails with
    | some h => .error ((("pin rm rejected for ") : String) ++ h)
    | none => .ok (removalTargets pinset hashToSave)

/-- Effect on the stored pin set of the rm calls issued by cleanPins:
every target whose removal succeeded disappears, independently of whether
cleanPins itself resolved or rejected, because the rm calls are all
issued before Promise.all awaits any of them. -/
def runPrune (pinset : List PinRecord) (hashToSave : String)
    (rmFails : String → Bool) : List PinRecord :=
  pinset.filter fun p =>
    !((removedHashes pinset hashToSave rmFails).contains p.hash)

/-- The hashes of the non-indirect pins of a pin set; the explicit
retention roots, called Direct pins by the specification. -/
def directHashes (pinset : List PinRecord) : List String :=
  (pinset.filter fun p => p.type != ("indirect")).map PinRecord.hash

/-- Effect of a successful node.pin.add(hash) on the stored pin set: the
hash becomes pinned (pin.add pins recursively by default in js-ipfs). -/
def addPinEffect (pinset : List PinRecord) (hash : String) :
    List PinRecord :=
  if pinset.any fun p => p.hash == hash then pinset
  else pinset ++ [⟨hash, ("recursive")⟩]

/-- The externally determined outcomes a single timer tick runs against:
the DNS answer, whether the pin.add promise (if issued) resolves, whether
the pin.ls call rejects, and which individual pin.rm calls reject. -/
structure TickInput where
  dns : Except String (List (List String))
  pinAddOk : Bool
  lsFails : Bool
  rmFails : String → Bool

/-- The process-lifetime mutable state: the module-level variable
lastIPFSHash (src/index.js line 112, undefined at start) and the pin set
held by the IPFS node. -/
structure SysState where
  lastIPFSHash : Option String
  pinset : List PinRecord
deriving DecidableEq

/-- Observable outcome of one firing of the tick handler: whether a
pin.add call was issued, whether the pinned-successfully line was logged
(the results.length check of line 196), whether the test-mode success
exit of line 200 fired, whether cleanPins was called, and the hashes
reported by the unpinned-hash warnings of lines 206-208. -/
structure TickResult where
  pinAddIssued : Bool
  pinnedLogged : Bool
  exited : Bool
  pruneRan : Bool
  reportedUnpins : List String
deriving DecidableEq

/-- The pruning phase of a tick: the call cleanPins(lastIPFSHash) made in
the second then-handler (line 204), paired with its effect on the stored
pin set.  When cleanPins rejects, the tick reports no unpinned hashes
(the warning loop of lines 205-208 is skipped and the catch handler of
line 209 logs the error), but rm calls already issued still took effect. -/
def prunePhase (pinset : List PinRecord) (save : String) (inp : TickInput) :
    List String × List PinRecord :=
  match cleanPins save
      (if inp.lsFails then .error ("ls failed") else .ok pinset)
      inp.rmFails with
  | .ok pins => (pins, runPrune pinset save inp.rmFails)
  | .error _ =>
    ([], if inp.lsFails then pinset else runPrune pinset save inp.rmFails)

/-- The part of the tick handler that runs once the DNS resolution has
succeeded with the given hash (src/index.js lines 173-208): when the hash
differs from lastIPFSHash, assign lastIPFSHash := hash (line 179, before
the pin.add of line 181 settles) and issue pin.add; a pin.add rejection
falls to the catch handler, skipping cleanPins for this tick; on pin.add
success with isTesting the process exits 0 at line 200 before cleanPins;
otherwise cleanPins runs with the current lastIPFSHash. -/
def tickResolved (isTesting : Bool) (s : SysState) (inp : TickInput)
    (hash : String) : TickResult × SysState :=
  if some hash ≠ s.lastIPFSHash then
    if inp.pinAddOk then
      if isTesting then
        ({ pinAddIssued := true, pinnedLogged := true, exited := true,
           pruneRan := false, reportedUnpins := [] },
         { lastIPFSHash := some hash,
           pinset := addPinEffect s.pinset hash })
      else
        ({ pinAddIssued := true, pinnedLogged := true, exited := false,
           pruneRan := true,
           reportedUnpins :=
             (prunePhase (addPinEffect s.pinset hash) hash inp).1 },
         { lastIPFSHash := some hash,
           pinset := (prunePhase (addPinEffect s.pinset hash) hash inp).2 })
    else
      ({ pinAddIssued := true, pinnedLogged := false, exited := false,
         pruneRan := false, reportedUnpins := [] },
       { lastIPFSHash := some hash, pinset := s.pinset })
  else
    ({ pinAddIssued := false, pinnedLogged := false, exited := false,
       pruneRan := true,
       reportedUnpins := (prunePhase s.pinset hash inp).1 },
     { lastIPFSHash := some hash,
       pinset := (prunePhase s.pinset hash inp).2 })

/-- One firing of the timer tick handler (src/index.js lines 171-210).
Mirrors the promise chain: a rejection of the DNS resolution falls to the
catch handler of line 209, leaving the state untouched; otherwise the
handler continues with the resolved hash. -/
def tick (isTesting : Bool) (s : SysState) (inp : TickInput) :
    TickResult × SysState :=
  match getLatestCheckpointsIPFSHash inp.dns with
  | .error _ =>
    ({ pinAddIssued := false, pinnedLogged := false, exited := false,
       pruneRan := false, reportedUnpins := [] }, s)
  | .ok hash => tickResolved isTesting s inp hash

/-- A sequence of timer ticks: the Metronome fires the handler repeatedly;
each firing runs against its external outcomes and the state left by the
previous one. -/
def runTicks (isTesting : Bool) (s : SysState) :
    List TickInput → List TickResult × SysState
  | [] => ([], s)
  | inp :: rest =>
    ((tick isTesting s inp).1 ::
       (runTicks isTesting (tick isTesting s inp).2 rest).1,
     (runTicks isTesting (tick isTesting s inp).2 rest).2)

/-- Exit status passed to process.exit by the test watchdog when the time
budget expires without a successful pin (src/index.js line 218). -/
def watchdogExitStatus : Nat := 0

/-- Exit status passed to process.exit on diagnostic-mode success
(src/index.js line 200). -/
def diagSuccessExitStatus : Nat := 0

/-- How a diagnostic-mode process run ended: with which exit status, and
whether the watchdog timer (src/index.js lines 215-220) is what fired. -/
structure ProcOutcome where
  exitStatus : Nat
  byWatchdog : Bool
deriving DecidableEq

/-- A diagnostic-mode (test) run: the listed ticks are the ones that fire
before the time budget expires; the first tick whose pin-add succeeds
exits the process via line 200; if the budget runs out with no such tick,
the watchdog of line 216 fires. -/
def diagnosticRun (s : SysState) : List TickInput → ProcOutcome
  | [] => { exitStatus := watchdogExitStatus, byWatchdog := true }
  | inp :: rest =>
    if (tick true s inp).1.exited then
      { exitStatus := diagSuccessExitStatus, byWatchdog := false }
    else diagnosticRun (tick true s inp).2 rest

/-- Start time in milliseconds of the n-th firing of the timer: the
Metronome of src/index.js line 167 fires on a fixed period (the first
firing being the manual timer.tick() of line 213), and the handler never
pauses the timer nor checks whether an earlier chain is still pending. -/
def tickStart (period n : Nat) : Nat := period * n

/-- Completion time of the asynchronous resolve, pin, list, prune chain
started by the n-th tick, given the duration of each chain. -/
def chainEnd (period : Nat) (dur : Nat → Nat) (n : Nat) : Nat :=
  tickStart period n + dur n

/-- Tick n+1 fires while the chain started by tick n is still in
flight. -/
def overlapAt (period : Nat) (dur : Nat → Nat) (n : Nat) : Prop :=
  tickStart period (n + 1) < chainEnd period dur n

/-- Unfolding equation for the resolver on a successful DNS query. -/
theorem getLatest_ok_eq (rs : List (List String)) :
    getLatestCheckpointsIPFSHash (Except.ok rs) =
      if rs.length = 0 ∨ (rs.headD []).length = 0 then
        Except.error ("Could not retieve the latest checkpoints IPFS hash")
      else Except.ok (lastSegment ((rs.headD []).headD (""))) := rfl

/-- C5: getLatestCheckpointsIPFSHash fails exactly when the DNS TXT query
errors, or when it returns zero records or an empty first record;
otherwise it returns the substring after the final slash of the first
record of the first string. -/
theorem C5_resolver_spec (dns : Except String (List (List String))) :
    (exceptOk (getLatestCheckpointsIPFSHash dns) = false ↔
      ((∃ e, dns = Except.error e) ∨
        (∃ rs, dns = Except.ok rs ∧
          (rs.length = 0 ∨ (rs.headD []).length = 0)))) ∧
    (∀ rs, dns = Except.ok rs → rs.length ≠ 0 →
      (rs.headD []).length ≠ 0 →
      getLatestCheckpointsIPFSHash dns =
        Except.ok (lastSegment ((rs.headD []).headD ("")))) := by
  constructor
  · cases dns with
    | error e =>
      exact ⟨fun _ => Or.inl ⟨e, rfl⟩, fun _ => rfl⟩
    | ok rs =>
      rw [getLatest_ok_eq]
      by_cases h : rs.length = 0 ∨ (rs.headD []).length = 0
      · rw [if_pos h]
        exact ⟨fun _ => Or.inr ⟨rs, rfl, h⟩, fun _ => rfl⟩
      · rw [if_neg h]
        constructor
        · intro hc; exact Bool.noConfusion hc
        · intro hc
          rcases hc with ⟨e, he⟩ | ⟨rs2, hrs2, hcond⟩
          · exact Except.noConfusion he
          · rw [Except.ok.injEq] at hrs2
            subst hrs2
            exact absurd hcond h
  · intro rs hrs h1 h2
    subst hrs
    rw [getLatest_ok_eq, if_neg (by
      intro hc
      rcases hc with hc | hc
      · exact h1 hc
      · exact h2 hc)]

theorem C5_witness :
    getLatestCheckpointsIPFSHash (Except.ok [[("dnslink=/ipfs/QmXYZ")]]) =
      Except.ok (lastSegment ("dnslink=/ipfs/QmXYZ")) :=
  (C5_resolver_spec (Except.ok [[("dnslink=/ipfs/QmXYZ")]])).2
    [[("dnslink=/ipfs/QmXYZ")]] rfl (by decide) (by decide)

/-- C10: the resolver succeeds for every DNS answer whose first record has
a non-empty first string, with no validation of the extracted segment; in
particular a record string ending in a slash resolves successfully to the
empty string. -/
theorem C10_no_validation :
    (∀ rs : List (List String), ((rs.headD []).headD ("")) ≠ ("") →
      exceptOk (getLatestCheckpointsIPFSHash (Except.ok rs)) = true) ∧
    getLatestCheckpointsIPFSHash (Except.ok [[("dnslink=/ipfs/")]]) =
      Except.ok ("") := by
  constructor
  · intro rs h
    have h1 : rs.length ≠ 0 := by
      intro hc
      have : rs = [] := List.length_eq_zero.mp hc
      subst this
      exact h rfl
    have h2 : (rs.headD []).length ≠ 0 := by
      intro hc
      have : rs.headD [] = [] := List.length_eq_zero.mp hc
      rw [this] at h
      exact h rfl
    rw [getLatest_ok_eq, if_neg (by
      intro hc
      rcases hc with hc | hc
      · exact h1 hc
      · exact h2 hc)]
    rfl
  · decide

theorem C10_witness :
    exceptOk (getLatestCheckpointsIPFSHash (Except.ok [[("x")]])) = true :=
  C10_no_validation.1 [[("x")]] (by decide)

/-- Bridge between List.contains and membership for lists of strings. -/
theorem contains_true_iff (l : List String) (x : String) :
    l.contains x = true ↔ x ∈ l := List.elem_iff

/-- Membership characterisation of the removal targets of cleanPins. -/
theorem mem_removalTargets (pinset : List PinRecord) (save x : String) :
    x ∈ removalTargets pinset save ↔
      ∃ p ∈ pinset, p.hash = x ∧ x ≠ save ∧ p.type ≠ ("indirect") := by
  unfold removalTargets
  constructor
  · intro hx
    rcases List.mem_map.mp hx with ⟨p, hp, rfl⟩
    rcases List.mem_filter.mp hp with ⟨hpmem, hpred⟩
    rw [Bool.and_eq_true, bne_iff_ne, bne_iff_ne] at hpred
    exact ⟨p, hpmem, rfl, hpred.1, hpred.2⟩
  · intro ⟨p, hpmem, hhash, hne, hty⟩
    subst hhash
    refine List.mem_map.mpr ⟨p, List.mem_filter.mpr ⟨hpmem, ?_⟩, rfl⟩
    rw [Bool.and_eq_true, bne_iff_ne, bne_iff_ne]
    exact ⟨hne, hty⟩

/-- C7: the removal set computed by a reconciliation pass contains only
non-indirect (Direct, in the terminology of the specification) pins whose
hash differs from the saved hash; and for a pin set holding a Direct pin A
and an Indirect pin Z, a pass with resolved hash A issues zero removal
calls. -/
theorem C7_prune_only_direct (pinset : List PinRecord) (save : String) :
    (∀ x ∈ removalTargets pinset save,
      x ≠ save ∧ ∃ p ∈ pinset, p.hash = x ∧ p.type ≠ ("indirect")) ∧
    (∀ A Z : String,
      removalTargets [⟨A, ("direct")⟩, ⟨Z, ("indirect")⟩] A = []) := by
  constructor
  · intro x hx
    rcases (mem_removalTargets pinset save x).mp hx with ⟨p, hp, hhash, hne, hty⟩
    exact ⟨hne, p, hp, hhash, hty⟩
  · intro A Z
    unfold removalTargets
    rw [List.filter_cons_of_neg, List.filter_cons_of_neg, List.filter_nil]
    · rfl
    · simp
    · simp

theorem C7_witness :
    ("B") ≠ ("A") ∧
      ∃ p ∈ [PinRecord.mk ("B") ("direct")],
        p.hash = ("B") ∧ p.type ≠ ("indirect") :=
  (C7_prune_only_direct [PinRecord.mk ("B") ("direct")] ("A")).1 ("B")
    (by decide)

/-- With no removal failures every target is successfully removed. -/
theorem removedHashes_of_no_failures (pinset : List PinRecord)
    (save : String) (rmFails : String → Bool) (hrm : ∀ x, rmFails x = false) :
    removedHashes pinset save rmFails = removalTargets pinset save := by
  unfold removedHashes
  apply List.filter_eq_self.mpr
  intro a _
  rw [hrm a]
  rfl

/-- C6: convergence of one reconciliation pass: for every pin set whose
Direct pins are exactly A and B (with A distinct from B) and resolved hash
A, a pass whose removals all succeed removes B, retains A, and leaves
every Indirect pin in place, so the Direct (non-indirect) subset
afterwards is exactly A. -/
theorem C6_convergence (pinset : List PinRecord) (A B : String)
    (rmFails : String → Bool)
    (hAB : A ≠ B)
    (hnodup : (pinset.map PinRecord.hash).Nodup)
    (hA : PinRecord.mk A ("direct") ∈ pinset)
    (hB : PinRecord.mk B ("direct") ∈ pinset)
    (hdir : ∀ p ∈ pinset, p.type = ("direct") → p.hash = A ∨ p.hash = B)
    (htypes : ∀ p ∈ pinset, p.type = ("direct") ∨ p.type = ("indirect"))
    (hrm : ∀ x, rmFails x = false) :
    B ∈ removedHashes pinset A rmFails ∧
    PinRecord.mk B ("direct") ∉ runPrune pinset A rmFails ∧
    PinRecord.mk A ("direct") ∈ runPrune pinset A rmFails ∧
    (∀ p ∈ runPrune pinset A rmFails, p.type ≠ ("indirect") → p.hash = A) ∧
    (∀ p ∈ pinset, p.type = ("indirect") →
      p ∈ runPrune pinset A rmFails) := by
  have hrem_eq := removedHashes_of_no_failures pinset A rmFails hrm
  have htargetsB : ∀ x ∈ removalTargets pinset A, x = B := by
    intro x hx
    rcases (mem_removalTargets pinset A x).mp hx with ⟨p, hp, hhash, hne, hty⟩
    subst hhash
    rcases htypes p hp with hd | hi
    · rcases hdir p hp hd with h1 | h1
      · exact absurd h1 hne
      · exact h1
    · exact absurd hi hty
  have hBmem : B ∈ removalTargets pinset A :=
    (mem_removalTargets pinset A B).mpr
      ⟨⟨B, ("direct")⟩, hB, rfl, fun h => hAB h.symm,
        show ("direct") ≠ ("indirect") by decide⟩
  have hBrem : B ∈ removedHashes pinset A rmFails := by
    rw [hrem_eq]; exact hBmem
  have hAnotrem : A ∉ removedHashes pinset A rmFails := by
    rw [hrem_eq]
    intro hc
    exact hAB (htargetsB A hc)
  refine ⟨hBrem, ?_, ?_, ?_, ?_⟩
  · intro hc
    rcases List.mem_filter.mp hc with ⟨_, hpred⟩
    rw [Bool.not_eq_true'] at hpred
    have hct := (contains_true_iff _ _).mpr hBrem
    rw [hct] at hpred
    exact Bool.noConfusion hpred
  · apply List.mem_filter.mpr
    refine ⟨hA, ?_⟩
    rw [Bool.not_eq_true']
    apply Bool.eq_false_iff.mpr
    intro hc
    exact hAnotrem ((contains_true_iff _ _).mp hc)
  · intro p hp hty
    rcases List.mem_filter.mp hp with ⟨hpmem, hpred⟩
    rcases htypes p hpmem with hd | hi
    · rcases hdir p hpmem hd with h1 | h1
      · exact h1
      · exfalso
        rw [Bool.not_eq_true'] at hpred
        have hct : (removedHashes pinset A rmFails).contains p.hash = true :=
          (contains_true_iff _ _).mpr (by rw [h1]; exact hBrem)
        rw [hct] at hpred
        exact Bool.noConfusion hpred
    · exact absurd hi hty
  · intro p hp hi
    apply List.mem_filter.mpr
    refine ⟨hp, ?_⟩
    rw [Bool.not_eq_true']
    apply Bool.eq_false_iff.mpr
    intro hc
    have hmem := (contains_true_iff _ _).mp hc
    rw [hrem_eq] at hmem
    have hpB : p.hash = B := htargetsB p.hash hmem
    have hinj := List.inj_on_of_nodup_map hnodup
    have hpeq : p = PinRecord.mk B ("direct") := hinj hp hB (by rw [hpB])
    rw [hpeq] at hi
    exact absurd hi (show ¬(PinRecord.mk B ("direct")).type = ("indirect") from
      show ¬("direct") = ("indirect") by decide)

theorem C6_witness :
    ("B") ∈ removedHashes
        [⟨("A"), ("direct")⟩, ⟨("B"), ("direct")⟩, ⟨("Z"), ("indirect")⟩]
        ("A") (fun _ => false) ∧
    PinRecord.mk ("B") ("direct") ∉ runPrune
        [⟨("A"), ("direct")⟩, ⟨("B"), ("direct")⟩, ⟨("Z"), ("indirect")⟩]
        ("A") (fun _ => false) ∧
    PinRecord.mk ("A") ("direct") ∈ runPrune
        [⟨("A"), ("direct")⟩, ⟨("B"), ("direct")⟩, ⟨("Z"), ("indirect")⟩]
        ("A") (fun _ => false) ∧
    (∀ p ∈ runPrune
        [⟨("A"), ("direct")⟩, ⟨("B"), ("direct")⟩, ⟨("Z"), ("indirect")⟩]
        ("A") (fun _ => false), p.type ≠ ("indirect") → p.hash = ("A")) ∧
    (∀ p ∈ [⟨("A"), ("direct")⟩, ⟨("B"), ("direct")⟩,
        (⟨("Z"), ("indirect")⟩ : PinRecord)], p.type = ("indirect") →
      p ∈ runPrune
        [⟨("A"), ("direct")⟩, ⟨("B"), ("direct")⟩, ⟨("Z"), ("indirect")⟩]
        ("A") (fun _ => false)) :=
  C6_convergence
    [⟨("A"), ("direct")⟩, ⟨("B"), ("direct")⟩, ⟨("Z"), ("indirect")⟩]
    ("A") ("B") (fun _ => false) (by decide) (by decide) (by decide)
    (by decide) (by decide) (by decide) (fun x => rfl)

/-- Unfolding of a tick whose DNS resolution succeeds. -/
theorem tick_of_ok (t : Bool) (s : SysState) (inp : TickInput) (hash : String)
    (hres : getLatestCheckpointsIPFSHash inp.dns = Except.ok hash) :
    tick t s inp = tickResolved t s inp hash := by
  unfold tick
  rw [hres]

/-- After any successfully resolving tick, lastIPFSHash holds the resolved
hash, whatever the outcome of pin-add and pruning. -/
theorem tickResolved_last (t : Bool) (s : SysState) (inp : TickInput)
    (hash : String) :
    (tickResolved t s inp hash).2.lastIPFSHash = some hash := by
  unfold tickResolved
  split
  · split
    · split
      · rfl
      · rfl
    · rfl
  · rfl

/-- A tick that resolves the hash already recorded issues no pin-add. -/
theorem tickResolved_no_pinAdd (t : Bool) (s : SysState) (inp : TickInput)
    (hash : String) (hlast : s.lastIPFSHash = some hash) :
    (tickResolved t s inp hash).1.pinAddIssued = false := by
  unfold tickResolved
  rw [if_neg (by rw [hlast]; exact fun hc => hc rfl)]

/-- Unfolding of runTicks on a non-empty input list. -/
theorem runTicks_cons (t : Bool) (s : SysState) (inp : TickInput)
    (rest : List TickInput) :
    runTicks t s (inp :: rest) =
      ((tick t s inp).1 :: (runTicks t (tick t s inp).2 rest).1,
       (runTicks t (tick t s inp).2 rest).2) := rfl

/-- While lastIPFSHash already holds X and every resolution keeps
yielding X, no tick of the run issues a pin-add. -/
theorem runTicks_no_pinAdd (t : Bool) (X : String) (inps : List TickInput) :
    ∀ s : SysState, s.lastIPFSHash = some X →
      (∀ inp ∈ inps, getLatestCheckpointsIPFSHash inp.dns = Except.ok X) →
      ∀ r ∈ (runTicks t s inps).1, r.pinAddIssued = false := by
  induction inps with
  | nil =>
    intro s _ _ r hr
    exact absurd hr (List.not_mem_nil r)
  | cons inp rest ih =>
    intro s hlast hall r hr
    have hres := hall inp (List.mem_cons_self inp rest)
    rw [runTicks_cons] at hr
    rcases List.mem_cons.mp hr with rfl | hr
    · rw [tick_of_ok t s inp X hres]
      exact tickResolved_no_pinAdd t s inp X hlast
    · refine ih (tick t s inp).2 ?_ (fun i hi => hall i (List.mem_cons_of_mem inp hi)) r hr
      rw [tick_of_ok t s inp X hres]
      exact tickResolved_last t s inp X

/-- C9: once a tick has detected X, attempted the pin-add for X and seen
it fail, lastIPFSHash already holds X, so no later tick whose resolution
again yields X ever issues another pin-add call, as long as every
resolution in between also yields X. -/
theorem C9_no_retry_after_failed_pinAdd (s : SysState) (inp0 : TickInput)
    (inps : List TickInput) (X : String)
    (hres0 : getLatestCheckpointsIPFSHash inp0.dns = Except.ok X)
    (_hissued : (tick false s inp0).1.pinAddIssued = true)
    (_hfail : inp0.pinAddOk = false)
    (hall : ∀ inp ∈ inps, getLatestCheckpointsIPFSHash inp.dns = Except.ok X) :
    ∀ r ∈ (runTicks false (tick false s inp0).2 inps).1,
      r.pinAddIssued = false := by
  apply runTicks_no_pinAdd false X inps
  · rw [tick_of_ok false s inp0 X hres0]
    exact tickResolved_last false s inp0 X
  · exact hall

/-- Tick input of the C9 witness: DNS publishes Q, pin-add rejects. -/
def c9Fail : TickInput :=
  ⟨Except.ok [[("Q")]], false, false, fun _ => false⟩

theorem C9_witness :
    (((runTicks false (tick false ⟨none, []⟩ c9Fail).2
        (List.replicate 2 c9Fail)).1.headD
        ⟨true, true, true, true, []⟩).pinAddIssued = false) := by
  have h := C9_no_retry_after_failed_pinAdd ⟨none, []⟩ c9Fail
    (List.replicate 2 c9Fail) ("Q") (by decide) (by decide) rfl
    (fun inp hm => by rw [List.eq_of_mem_replicate hm]; decide)
  exact h _ (by decide)

/-- C1 amended: as soon as a changed resolved hash is detected,
lastIPFSHash is assigned the new hash, before pin.add settles; when the
pin-add then fails, the tick keeps the NEW hash (the pre-tick value is
lost) while the pin set stays untouched. -/
theorem C1_last_overwritten_on_detection (t : Bool) (s : SysState)
    (inp : TickInput) (hash : String)
    (hres : getLatestCheckpointsIPFSHash inp.dns = Except.ok hash)
    (hch : some hash ≠ s.lastIPFSHash)
    (hfail : inp.pinAddOk = false) :
    (tick t s inp).1.pinAddIssued = true ∧
    (tick t s inp).2.lastIPFSHash = some hash ∧
    (tick t s inp).2.pinset = s.pinset := by
  rw [tick_of_ok t s inp hash hres]
  unfold tickResolved
  rw [if_pos hch, hfail]
  exact ⟨rfl, rfl, rfl⟩

/-- Tick input of the C1 counterexample: DNS publishes B while the
pin-add rejects. -/
def c1Input : TickInput :=
  ⟨Except.ok [[("dnslink=/ipfs/B")]], false, false, fun _ => false⟩

theorem C1_counterexample :
    (tick false ⟨some ("A"), []⟩ c1Input).1.pinAddIssued = true ∧
    c1Input.pinAddOk = false ∧
    ¬((tick false ⟨some ("A"), []⟩ c1Input).2.lastIPFSHash = some ("A")) := by
  refine ⟨by decide, rfl, by decide⟩

theorem C1_witness :
    (tick false ⟨some ("X"), [⟨("X"), ("direct")⟩]⟩ c1Input).1.pinAddIssued
        = true ∧
    (tick false ⟨some ("X"), [⟨("X"), ("direct")⟩]⟩ c1Input).2.lastIPFSHash
        = some ("B") ∧
    (tick false ⟨some ("X"), [⟨("X"), ("direct")⟩]⟩ c1Input).2.pinset
        = [⟨("X"), ("direct")⟩] :=
  C1_last_overwritten_on_detection false ⟨some ("X"), [⟨("X"), ("direct")⟩]⟩
    c1Input ("B") (by decide) (by decide) rfl

/-- Unfolding of a tick that resolves the hash already recorded. -/
theorem tickResolved_unchanged (t : Bool) (s : SysState) (inp : TickInput)
    (hash : String) (hlast : s.lastIPFSHash = some hash) :
    tickResolved t s inp hash =
      (⟨false, false, false, true, (prunePhase s.pinset hash inp).1⟩,
       ⟨some hash, (prunePhase s.pinset hash inp).2⟩) := by
  unfold tickResolved
  rw [if_neg (by rw [hlast]; exact fun hc => hc rfl)]

/-- When the listing call succeeds, the pin set after the pruning phase is
the one left by the issued removals, whether or not cleanPins itself
resolved. -/
theorem prunePhase_pinset_of_ls_ok (ps : List PinRecord) (save : String)
    (inp : TickInput) (hls : inp.lsFails = false) :
    (prunePhase ps save inp).2 = runPrune ps save inp.rmFails := by
  unfold prunePhase
  rw [hls]
  cases hcl : cleanPins save
      (if false = true then Except.error ("ls failed") else Except.ok ps)
      inp.rmFails with
  | error e => rfl
  | ok pins => rfl

/-- After a prune whose removals all succeeded, no removal target is
left: every surviving non-indirect pin carries the saved hash. -/
theorem removalTargets_runPrune_eq_nil (ps : List PinRecord) (save : String)
    (f : String → Bool) (hf : ∀ x, f x = false) :
    removalTargets (runPrune ps save f) save = [] := by
  rw [List.eq_nil_iff_forall_not_mem]
  intro x hx
  rcases (mem_removalTargets _ _ _).mp hx with ⟨p, hp, hhash, hne, hty⟩
  rcases List.mem_filter.mp hp with ⟨hpmem, hpred⟩
  rw [Bool.not_eq_true'] at hpred
  have hct : (removedHashes ps save f).contains p.hash = true := by
    apply (contains_true_iff _ _).mpr
    rw [removedHashes_of_no_failures ps save f hf, hhash]
    exact (mem_removalTargets ps save x).mpr ⟨p, hpmem, hhash, hne, hty⟩
  rw [hct] at hpred
  exact Bool.noConfusion hpred

/-- A prune with no removal targets leaves the pin set untouched. -/
theorem runPrune_eq_self_of_no_targets (l : List PinRecord) (save : String)
    (g : String → Bool) (htarg : removalTargets l save = []) :
    runPrune l save g = l := by
  unfold runPrune
  rw [show removedHashes l save g = [] by
    unfold removedHashes; rw [htarg]; rfl]
  apply List.filter_eq_self.mpr
  intro a _
  rfl

/-- C8: when the resolved hash equals lastIPFSHash, the tick skips
pin-add but still runs the pruning step; and after a first such pass
whose removals all succeed, a second pass with the same resolved hash
leaves the stored pin set, in particular its Direct (non-indirect)
subset, unchanged. -/
theorem C8_idempotent (s : SysState) (inp1 inp2 : TickInput) (X : String)
    (hlast : s.lastIPFSHash = some X)
    (hres1 : getLatestCheckpointsIPFSHash inp1.dns = Except.ok X)
    (hres2 : getLatestCheckpointsIPFSHash inp2.dns = Except.ok X)
    (hls1 : inp1.lsFails = false) (hls2 : inp2.lsFails = false)
    (hrm1 : ∀ x, inp1.rmFails x = false) :
    (tick false s inp1).1.pinAddIssued = false ∧
    (tick false s inp1).1.pruneRan = true ∧
    (tick false (tick false s inp1).2 inp2).2.pinset =
      (tick false s inp1).2.pinset ∧
    directHashes (tick false (tick false s inp1).2 inp2).2.pinset =
      directHashes (tick false s inp1).2.pinset := by
  rw [tick_of_ok false s inp1 X hres1, tickResolved_unchanged false s inp1 X hlast]
  have hpin1 : (prunePhase s.pinset X inp1).2 = runPrune s.pinset X inp1.rmFails :=
    prunePhase_pinset_of_ls_ok s.pinset X inp1 hls1
  rw [tick_of_ok false _ inp2 X hres2, tickResolved_unchanged false _ inp2 X rfl]
  have hpin2 : (prunePhase (prunePhase s.pinset X inp1).2 X inp2).2 =
      (prunePhase s.pinset X inp1).2 := by
    rw [prunePhase_pinset_of_ls_ok _ X inp2 hls2, hpin1]
    exact runPrune_eq_self_of_no_targets _ X inp2.rmFails
      (removalTargets_runPrune_eq_nil s.pinset X inp1.rmFails hrm1)
  refine ⟨rfl, rfl, hpin2, by rw [hpin2]⟩

/-- Tick input of the C8 witness: DNS keeps publishing Q. -/
def c8Input : TickInput :=
  ⟨Except.ok [[("Q")]], true, false, fun _ => false⟩

theorem C8_witness :
    (tick false ⟨some ("Q"), [⟨("Q"), ("direct")⟩, ⟨("R"), ("direct")⟩]⟩
        c8Input).1.pinAddIssued = false ∧
    (tick false ⟨some ("Q"), [⟨("Q"), ("direct")⟩, ⟨("R"), ("direct")⟩]⟩
        c8Input).1.pruneRan = true ∧
    (tick false (tick false
        ⟨some ("Q"), [⟨("Q"), ("direct")⟩, ⟨("R"), ("direct")⟩]⟩ c8Input).2
        c8Input).2.pinset =
      (tick false ⟨some ("Q"), [⟨("Q"), ("direct")⟩, ⟨("R"), ("direct")⟩]⟩
        c8Input).2.pinset ∧
    directHashes (tick false (tick false
        ⟨some ("Q"), [⟨("Q"), ("direct")⟩, ⟨("R"), ("direct")⟩]⟩ c8Input).2
        c8Input).2.pinset =
      directHashes (tick false
        ⟨some ("Q"), [⟨("Q"), ("direct")⟩, ⟨("R"), ("direct")⟩]⟩
        c8Input).2.pinset :=
  C8_idempotent ⟨some ("Q"), [⟨("Q"), ("direct")⟩, ⟨("R"), ("direct")⟩]⟩
    c8Input c8Input ("Q") rfl (by decide) (by decide) rfl rfl (fun x => rfl)

/-- C3 amended: a failure of the listing call aborts the pruning step;
but so, in effect, does a failure of any single removal: the rm calls for
the whole batch are issued eagerly, yet one rejection makes cleanPins
reject through Promise.all, so not even the successfully removed hashes
are reported; all targets are reported only when every removal succeeds. -/
theorem C3_cleanPins_all_or_nothing (save e : String)
    (ps : List PinRecord) (f : String → Bool) :
    cleanPins save (Except.error e) f = Except.error e ∧
    ((∃ x ∈ removalTargets ps save, f x = true) →
      ∃ msg, cleanPins save (Except.ok ps) f = Except.error msg) ∧
    ((∀ x ∈ removalTargets ps save, f x = false) →
      cleanPins save (Except.ok ps) f =
        Except.ok (removalTargets ps save)) := by
  refine ⟨rfl, ?_, ?_⟩
  · intro ⟨x, hx, hfx⟩
    cases hfind : (removalTargets ps save).find? f with
    | none => exact absurd hfx (List.find?_eq_none.mp hfind x hx)
    | some y =>
      refine ⟨(("pin rm rejected for ") : String) ++ y, ?_⟩
      have hred : cleanPins save (Except.ok ps) f =
          match (removalTargets ps save).find? f with
          | some h => Except.error ((("pin rm rejected for ") : String) ++ h)
          | none => Except.ok (removalTargets ps save) := rfl
      rw [hred, hfind]
  · intro hall
    have hfind : (removalTargets ps save).find? f = none :=
      List.find?_eq_none.mpr (fun x hx => by
        rw [hall x hx]
        exact fun hc => Bool.noConfusion hc)
    have hred : cleanPins save (Except.ok ps) f =
        match (removalTargets ps save).find? f with
        | some h => Except.error ((("pin rm rejected for ") : String) ++ h)
        | none => Except.ok (removalTargets ps save) := rfl
    rw [hred, hfind]

theorem C3_witness :
    cleanPins ("A") (Except.error ("ls failed")) (fun x => x == ("B")) =
      Except.error ("ls failed") ∧
    ∃ msg, cleanPins ("A") (Except.ok [⟨("B"), ("direct")⟩])
      (fun x => x == ("B")) = Except.error msg := by
  have h := C3_cleanPins_all_or_nothing ("A") ("ls failed")
    [⟨("B"), ("direct")⟩] (fun x => x == ("B"))
  exact ⟨h.1, h.2.1 ⟨("B"), by decide, by decide⟩⟩

/-- Pin set of the C3 counterexample: three direct pins A, B, C. -/
def c3Pins : List PinRecord :=
  [⟨("A"), ("direct")⟩, ⟨("B"), ("direct")⟩, ⟨("C"), ("direct")⟩]

/-- Tick input of the C3 counterexample: DNS still publishes A, the
listing succeeds, and exactly the removal of B rejects. -/
def c3Input : TickInput :=
  ⟨Except.ok [[("A")]], true, false, fun x => x == ("B")⟩

theorem C3_counterexample :
    ("C") ∈ removedHashes c3Pins ("A") c3Input.rmFails ∧
    (tick false ⟨some ("A"), c3Pins⟩ c3Input).1.pruneRan = true ∧
    (tick false ⟨some ("A"), c3Pins⟩ c3Input).1.reportedUnpins = [] ∧
    PinRecord.mk ("C") ("direct") ∉
      (tick false ⟨some ("A"), c3Pins⟩ c3Input).2.pinset := by
  refine ⟨by decide, by decide, by decide, by decide⟩

/-- Tick input used for the C2 run: the DNS query rejects. -/
def c2DnsFail : TickInput :=
  ⟨Except.error ("ENOTFOUND"), false, false, fun _ => false⟩

/-- C2 (refuted as stated, the source being the bug): in diagnostic mode
with every resolution failing, the watchdog fires at budget expiry, no
tick ever issued a pin-add, yet the process exits with status 0, the very
status of diagnostic-mode success, not a non-zero failure status. -/
theorem C2_watchdog_exits_zero :
    (diagnosticRun ⟨none, []⟩ (List.replicate 3 c2DnsFail)).byWatchdog
        = true ∧
    (diagnosticRun ⟨none, []⟩ (List.replicate 3 c2DnsFail)).exitStatus = 0 ∧
    (∀ r ∈ (runTicks true ⟨none, []⟩ (List.replicate 3 c2DnsFail)).1,
      r.pinAddIssued = false) ∧
    watchdogExitStatus = diagSuccessExitStatus := by
  refine ⟨by decide, by decide, by decide, rfl⟩

/-- C4 counterexample: with the production period of one hour (in
milliseconds) and a first chain lasting two hours (for instance a pin-add
fetching a large content graph), the second firing of the Metronome
happens while the chain started by the first one is still in flight. -/
theorem C4_counterexample :
    overlapAt 3600000 (fun _ => 7200000) 0 := by
  show tickStart 3600000 1 < chainEnd 3600000 (fun _ => 7200000) 0
  decide

/-- C4 amended: the Metronome fires on the fixed period with no guard in
the handler, so the chain of tick n is still in flight when tick n+1
fires precisely when the duration of that chain exceeds the period. -/
theorem C4_overlap_iff (period : Nat) (dur : Nat → Nat) (n : Nat) :
    overlapAt period dur n ↔ period < dur n := by
  unfold overlapAt chainEnd tickStart
  rw [Nat.mul_succ]
  omega
